import Mathlib

/-!
Shallow embedding of `softlearning/policies/gmm.py` (class `GMMPolicy`) and
verification of its specification.

The scalar type of the embedding is `ℝ`; batched tensors are nested lists
(`List (List ℝ)` for an `N × Da` matrix, `List (List (List ℝ))` for an
`N × K × Da` tensor).  The mixture-parameter network and the sampling graph
(`softlearning.distributions.GMM`) are black boxes for every property below:
their evaluated outputs are an explicit input (`GMMDistOut`) to the embedded
operations, exactly as the Python code reads the tensors `mus_t`,
`log_sigs_t`, `log_ws_t`, `x_t`, `log_p_t` of `self.distribution`.
-/

/-- `EPS = 1e-6`, the numerical-stability constant of `gmm.py`. -/
noncomputable def EPS : ℝ := 1e-6

/-- Evaluated output tensors of the GMM distribution for one observation
batch of size `N`.  The distribution class itself
(`softlearning.distributions.GMM`) is an external collaborator; only the
shape contract matters here: `mus_t : N × K × Da`, `log_sigs_t : N × K × Da`,
`log_ws_t : N × K`, `x_t : N × Da` (the sampled raw actions) and
`log_p_t : N` (the mixture log-density of each sampled raw action). -/
structure GMMDistOut where
  mus_t : List (List (List ℝ))
  log_sigs_t : List (List (List ℝ))
  log_ws_t : List (List ℝ)
  x_t : List (List ℝ)
  log_p_t : List ℝ

/-- The value function collaborator: `qf.eval(observations, actions)`
returns one score per candidate action. -/
def QF : Type := List (List ℝ) → List (List ℝ) → List ℝ

/-- Constructor configuration of `GMMPolicy.__init__`: immutable after
construction. -/
structure GMMPolicyCfg where
  Da : ℕ
  Ds : ℕ
  K : ℕ
  squash : Bool
  qf : Option QF
  reg : ℝ
  reparameterize : Bool

/-- The mutable mode state of the policy: `self._is_deterministic` and
`self._fixed_h`. -/
structure GMMPolicyMode where
  is_deterministic : Bool
  fixed_h : Option ℕ
deriving DecidableEq, Repr

/-- Errors raised by the embedded Python code. -/
inductive GMMError
  | attributeError
  | assertionError
  | indexError
deriving DecidableEq, Repr

/-- State of the mode fields on entry into the body of the
`GMMPolicy.deterministic` context manager: `self._is_deterministic` is set to
`set_deterministic`, and `self._fixed_h` is overwritten only when `latent`
is not `None`. -/
def det_ctx_enter (s : GMMPolicyMode) (set_deterministic : Bool)
    (latent : Option ℕ) : GMMPolicyMode :=
  let s1 : GMMPolicyMode := { s with is_deterministic := set_deterministic }
  match latent with
  | some l => { s1 with fixed_h := some l }
  | none => s1

/-- The `GMMPolicy.deterministic` context manager (a `@contextmanager`
generator).  `body` is the computation enclosed in the `with` block: it maps
the mode state at entry to the mode state when it finishes, together with a
flag that is `true` iff it raised an exception.  Per Python
`@contextmanager` semantics, when the body raises, the exception is thrown
into the generator at the `yield`; since the generator has no
`try`/`finally`, the two restoring assignments after `yield` are skipped and
the exception propagates. -/
def deterministic_ctx (s : GMMPolicyMode) (set_deterministic : Bool)
    (latent : Option ℕ) (body : GMMPolicyMode → GMMPolicyMode × Bool) :
    GMMPolicyMode × Bool :=
  let was_deterministic := s.is_deterministic
  let old_fixed_h := s.fixed_h
  let r := body (det_ctx_enter s set_deterministic latent)
  if r.2 then (r.1, true)
  else
    ({ r.1 with
        is_deterministic := was_deterministic
        fixed_h := old_fixed_h }, false)

/-- `GMMPolicy.__init__`.  Field assignments happen first, then
`assert not reparameterize` (an `AssertionError` when `reparameterize` is
true), and only after the assertion does `self.build()` run.  The network
construction is an opaque effect `buildFn`; the result on the assertion
failure path is independent of it because `build` is never reached. -/
def GMMPolicy_init {β : Type} (buildFn : GMMPolicyCfg → β) (Da Ds K : ℕ)
    (squash : Bool) (reparameterize : Bool) (qf : Option QF) (reg : ℝ) :
    Except GMMError (GMMPolicyCfg × GMMPolicyMode × β) :=
  let cfg : GMMPolicyCfg :=
    { Da := Da, Ds := Ds, K := K, squash := squash, qf := qf, reg := reg,
      reparameterize := reparameterize }
  let mode : GMMPolicyMode := { is_deterministic := false, fixed_h := none }
  if reparameterize then Except.error GMMError.assertionError
  else Except.ok (cfg, mode, buildFn cfg)

/-- Modelled from the spec: `NNPolicy._squash_correction` is not under
`src/`; §4.4 gives its contract: for each raw action, the correction is
`sum over dims of log(1 - tanh(raw_action_i)^2 + EPS)`.  Applied to a batch
it yields one scalar per row (`tf.reduce_sum(..., axis=1)`). -/
noncomputable def squash_correction (raw_actions : List (List ℝ)) :
    List ℝ :=
  raw_actions.map
    (fun row => (row.map (fun x => Real.log (1 - Real.tanh x ^ 2 + EPS))).sum)

/-- `GMMPolicy.actions_for(observations, with_log_pis=...)`: builds a GMM
distribution on the observations (its evaluated output is `dist`), takes
`raw_actions = stop_gradient(dist.x_t)`, squashes through `tanh` when
`self._squash`, and, when `with_log_pis`, returns `dist.log_p_t` with the
squash correction subtracted exactly when `self._squash`. -/
noncomputable def actions_for (squash : Bool) (with_log_pis : Bool)
    (dist : GMMDistOut) : List (List ℝ) × Option (List ℝ) :=
  let raw_actions := dist.x_t
  let actions :=
    if squash then raw_actions.map (List.map Real.tanh) else raw_actions
  if with_log_pis then
    let log_pis := dist.log_p_t
    let log_pis :=
      if squash then log_pis.zipWith (· - ·) (squash_correction raw_actions)
      else log_pis
    (actions, some log_pis)
  else (actions, none)

/-- The tensors assembled by `GMMPolicy.build` (evaluated): `self._actions`,
`self._log_pis` and `self._raw_actions`. -/
structure BuildTensors where
  actions : List (List ℝ)
  log_pis : List ℝ
  raw_actions : List (List ℝ)

/-- `GMMPolicy.build`: `raw_actions = stop_gradient(distribution.x_t)`;
`self._actions = tanh(raw_actions) if self._squash else raw_actions`;
`self._log_pis = distribution.log_p_t`;
`self._raw_actions = raw_actions`. -/
noncomputable def build (squash : Bool) (dist : GMMDistOut) : BuildTensors :=
  let raw_actions := dist.x_t
  { actions :=
      if squash then raw_actions.map (List.map Real.tanh) else raw_actions
    log_pis := dist.log_p_t
    raw_actions := raw_actions }

/-- The corrected log-probabilities computed by `GMMPolicy.log_diagnostics`:
`distribution.log_p_t - self._squash_correction(distribution.x_t)`,
with no dependence on `self._squash`. -/
noncomputable def log_diagnostics_log_pis (dist : GMMDistOut) : List ℝ :=
  (dist.log_p_t).zipWith (· - ·) (squash_correction dist.x_t)

/-- Auxiliary fold for `np.argmax`: `bi` is the index of the best value
`bv` seen so far, `i` the index of the head of the remaining list; the best
value is replaced only on a strictly larger value, so ties keep the first
occurrence. -/
noncomputable def argmaxAux (i : ℕ) (bi : ℕ) (bv : ℝ) : List ℝ → ℕ
  | [] => bi
  | v :: rest =>
    if bv < v then argmaxAux (i + 1) i v rest
    else argmaxAux (i + 1) bi bv rest

/-- `np.argmax` over a vector of scores: index of the first maximal entry
(`0` on the empty vector). -/
noncomputable def npArgmax : List ℝ → ℕ
  | [] => 0
  | v :: rest => argmaxAux 1 0 v rest

/-- Result of `GMMPolicy.get_actions`: the actions and, when requested, the
log-probabilities and the raw actions. -/
structure ActionResult where
  actions : List (List ℝ)
  log_pis : Option (List ℝ)
  raw_actions : Option (List (List ℝ))

/-- Choice of the component index `h` in the deterministic branch of
`get_actions`: `self._fixed_h` when a component is pinned, else
`np.argmax(qs)`. -/
noncomputable def det_h (mode : GMMPolicyMode) (qs : List ℝ) : ℕ :=
  match mode.fixed_h with
  | some fh => fh
  | none => npArgmax qs

/-- Tail of the deterministic branch of `get_actions`:
`actions = squashed_mus[h, :][None]`, `raw_actions = mus[h, :][None]`
(an `IndexError` when `h` is out of bounds), returning the raw actions
only when `with_raw_actions` and never a log-probability. -/
noncomputable def det_index_actions (with_raw_actions : Bool)
    (squashed_mus mus : List (List ℝ)) (h : ℕ) :
    Except GMMError ActionResult :=
  match squashed_mus[h]?, mus[h]? with
  | some arow, some rrow =>
    Except.ok
      { actions := [arow]
        log_pis := none
        raw_actions := if with_raw_actions then some [rrow] else none }
  | _, _ => Except.error GMMError.indexError

/-- `GMMPolicy.get_actions(observations, with_log_pis, with_raw_actions)`.
Deterministic branch (`self._is_deterministic`), in source order:
`AttributeError` when `self._qf is None`; `AssertionError` when
`with_log_pis`; `mus = run(distribution.mus_t)[0]` (a `K × Da` matrix, an
`IndexError` on an empty batch); `squashed_mus = np.tanh(mus)` when
`self._squash`, else `mus`; `qs = qf.eval(observations, squashed_mus)`;
`h = self._fixed_h` when fixed, else `np.argmax(qs)`;
`actions = squashed_mus[h][None]`, `raw_actions = mus[h][None]` (an
`IndexError` when `h` is out of bounds).  The stochastic branch delegates to
`NNPolicy.get_actions` — modelled from the spec (the base class is not under
`src/`): it evaluates the tensors assembled by `build` on the observation
batch and returns the squashed action, optionally with the log-probability
and the raw action. -/
noncomputable def get_actions (cfg : GMMPolicyCfg) (mode : GMMPolicyMode)
    (dist : GMMDistOut) (observations : List (List ℝ))
    (with_log_pis : Bool) (with_raw_actions : Bool) :
    Except GMMError ActionResult :=
  if mode.is_deterministic then
    match cfg.qf with
    | none => Except.error GMMError.attributeError
    | some qf =>
      if with_log_pis then Except.error GMMError.assertionError
      else
        match dist.mus_t.head? with
        | none => Except.error GMMError.indexError
        | some mus =>
          let squashed_mus :=
            if cfg.squash then mus.map (List.map Real.tanh) else mus
          let qs := qf observations squashed_mus
          det_index_actions with_raw_actions squashed_mus mus
            (det_h mode qs)
  else
    let bt := build cfg.squash dist
    Except.ok
      { actions := bt.actions
        log_pis := if with_log_pis then some bt.log_pis else none
        raw_actions :=
          if with_raw_actions then some bt.raw_actions else none }

/-- Concrete value function used in witnesses: a constant single score. -/
noncomputable def wQF0 : QF := fun _ _ => [(0 : ℝ)]

/-- Concrete distribution output (`N = 1`, `K = 1`, `Da = 1`) used in
witnesses: a single sampled raw action `0` with mixture log-density `0` and
component mean `1`. -/
noncomputable def wDist0 : GMMDistOut :=
  { mus_t := [[[1]]]
    log_sigs_t := [[[0]]]
    log_ws_t := [[0]]
    x_t := [[0]]
    log_p_t := [0] }

/-- Concrete distribution output with a batch of two rows (`N = 2`). -/
noncomputable def wDistA : GMMDistOut :=
  { mus_t := [[[1]], [[5]]]
    log_sigs_t := [[[0]], [[0]]]
    log_ws_t := [[0], [0]]
    x_t := [[0], [0]]
    log_p_t := [0, 0] }

/-- Like `wDistA` but with a different second batch row everywhere. -/
noncomputable def wDistB : GMMDistOut :=
  { mus_t := [[[1]], [[9]]]
    log_sigs_t := [[[0]], [[2]]]
    log_ws_t := [[0], [3]]
    x_t := [[0], [4]]
    log_p_t := [0, 5] }

/-- Concrete configuration used in witnesses: `Da = Ds = K = 1`,
`squash = false`, a value function present. -/
noncomputable def wCfg : GMMPolicyCfg :=
  { Da := 1, Ds := 1, K := 1, squash := false, qf := some wQF0,
    reg := 1e-3, reparameterize := false }

/-- Like `wCfg` but with squashing enabled. -/
noncomputable def wCfgSquash : GMMPolicyCfg :=
  { Da := 1, Ds := 1, K := 1, squash := true, qf := some wQF0,
    reg := 1e-3, reparameterize := false }

/-- Like `wCfg` but with no value function. -/
noncomputable def wCfgNoQF : GMMPolicyCfg :=
  { Da := 1, Ds := 1, K := 1, squash := false, qf := none,
    reg := 1e-3, reparameterize := false }

/-- Deterministic mode with no fixed component index. -/
def wModeDet : GMMPolicyMode := { is_deterministic := true, fixed_h := none }

/-- Deterministic mode with the component index pinned to `0`. -/
def wModeDetFixed : GMMPolicyMode :=
  { is_deterministic := true, fixed_h := some 0 }

/-- The result `get_actions wCfg wModeDetFixed wDist0 [[0]] false true`
evaluates to, used in the C10 witness. -/
noncomputable def wRes : ActionResult :=
  { actions := [[1]], log_pis := none, raw_actions := some [[1]] }

/-! ## Helper lemmas -/

/-- `tanh` maps every real into the open interval `(-1, 1)`. -/
theorem tanh_bounds (x : ℝ) : -1 < Real.tanh x ∧ Real.tanh x < 1 := by
  have hc : 0 < Real.cosh x := Real.cosh_pos x
  have h1 : Real.sinh x < Real.cosh x := Real.sinh_lt_cosh x
  have h2 : Real.sinh (-x) < Real.cosh (-x) := Real.sinh_lt_cosh (-x)
  rw [Real.sinh_neg, Real.cosh_neg] at h2
  rw [Real.tanh_eq_sinh_div_cosh]
  constructor
  · rw [lt_div_iff₀ hc]
    linarith
  · rw [div_lt_one hc]
    exact h1

/-- Every entry of a matrix of `tanh` images lies in `(-1, 1)`. -/
theorem mem_tanh_map_bounds (m : List (List ℝ)) :
    ∀ row ∈ m.map (List.map Real.tanh), ∀ a ∈ row, -1 < a ∧ a < 1 := by
  intro row hrow a ha
  rcases List.mem_map.1 hrow with ⟨r0, _, rfl⟩
  rcases List.mem_map.1 ha with ⟨x, _, rfl⟩
  exact tanh_bounds x

/-- The `EPS`-shifted logarithm at a zero raw action is strictly positive. -/
theorem log_one_add_EPS_pos : 0 < Real.log (1 + EPS) := by
  refine Real.log_pos ?_
  rw [EPS]
  norm_num

/-- The squash correction of the single raw action `0`. -/
theorem squash_correction_at_zero :
    squash_correction [[(0 : ℝ)]] = [Real.log (1 + EPS)] := by
  simp [squash_correction, Real.tanh_zero]

/-- First component of `actions_for`: the squashed (or raw) sampled
actions, for either value of `with_log_pis`. -/
theorem actions_for_fst (squash wlp : Bool) (dist : GMMDistOut) :
    (actions_for squash wlp dist).1 =
      if squash then dist.x_t.map (List.map Real.tanh) else dist.x_t := by
  cases wlp <;> cases squash <;> rfl

/-! ## Claim theorems -/

/-- C1: the claim — exiting the `deterministic` scoped context restores the
prior determinism flag and fixed component index on every exit path,
including when the enclosed computation raises — fails on the error exit
path.  Evaluating the context manager at the failing input: starting from
stochastic mode with no fixed component, entering with
`set_deterministic=True` and `latent=7` around a body that raises leaves
`_is_deterministic = true` and `_fixed_h = 7` (there is no `try`/`finally`
around the `yield`, so the restoring assignments are skipped). -/
theorem C1_deterministic_ctx_error_exit_not_restored :
    deterministic_ctx { is_deterministic := false, fixed_h := none } true
        (some 7) (fun s => (s, true)) =
      ({ is_deterministic := true, fixed_h := some 7 }, true) := rfl

/-- C9: on entry into the `deterministic` scope, a `None` latent leaves the
fixed component index unchanged, a non-`None` latent overwrites it with the
given value, and the determinism flag is always set to the requested value.
`det_ctx_enter` is, by definition of `deterministic_ctx`, exactly the mode
state the enclosed body runs under. -/
theorem C9_det_ctx_enter_latent :
    ∀ (s : GMMPolicyMode) (sd : Bool),
      (det_ctx_enter s sd none).fixed_h = s.fixed_h ∧
      (det_ctx_enter s sd none).is_deterministic = sd ∧
      ∀ l : ℕ,
        (det_ctx_enter s sd (some l)).fixed_h = some l ∧
        (det_ctx_enter s sd (some l)).is_deterministic = sd :=
  fun _ _ => ⟨rfl, rfl, fun _ => ⟨rfl, rfl⟩⟩

/-- C6: construction with `reparameterize = true` fails with the assertion
error, and the result is the same for every possible network-building
effect `buildFn` — the assertion fires before `self.build()` runs, so no
trainable parameters are allocated. -/
theorem C6_reparameterize_fails_before_build :
    ∀ {β : Type} (buildFn : GMMPolicyCfg → β) (Da Ds K : ℕ) (squash : Bool)
      (qf : Option QF) (reg : ℝ),
      GMMPolicy_init buildFn Da Ds K squash true qf reg =
        Except.error GMMError.assertionError :=
  fun _ _ _ _ _ _ _ => rfl

/-- C2 counterexample: the claim — with `squash=False` every reported
log-probability, including the one computed by the diagnostics operation,
equals the raw mixture log-density with nothing subtracted — is false:
`log_diagnostics` always subtracts the squash correction, so at the
concrete distribution output `wDist0` (raw action `0`, log-density `0`) it
reports `-log(1 + EPS) ≠ 0`. -/
theorem C2_counterexample :
    log_diagnostics_log_pis wDist0 ≠ wDist0.log_p_t := by
  have h0 : log_diagnostics_log_pis wDist0 = [0 - Real.log (1 + EPS)] := by
    rw [log_diagnostics_log_pis]
    show List.zipWith (· - ·) [(0 : ℝ)] (squash_correction [[(0 : ℝ)]]) = _
    rw [squash_correction_at_zero]
    rfl
  rw [h0]
  show ¬([0 - Real.log (1 + EPS)] = [(0 : ℝ)])
  intro h
  have h1 : (0 : ℝ) - Real.log (1 + EPS) = 0 := List.head_eq_of_cons_eq h
  have h2 : 0 < Real.log (1 + EPS) := log_one_add_EPS_pos
  linarith

/-- C2 amended: with `squash=False`, the log-probabilities of the action
sampling paths (`actions_for` and the tensors assembled by `build`) equal
the raw mixture log-density with nothing subtracted; the diagnostics
reporting operation, however, always subtracts the squash correction — it
reports exactly the corrected values that `actions_for` with `squash=True`
would report. -/
theorem C2_no_squash_log_pis :
    ∀ dist : GMMDistOut,
      (actions_for false true dist).2 = some dist.log_p_t ∧
      (build false dist).log_pis = dist.log_p_t ∧
      (actions_for true true dist).2 = some (log_diagnostics_log_pis dist) :=
  fun _ => ⟨rfl, rfl, rfl⟩

/-- C3 counterexample: the claim — with `squash=True` the log-probability
of the graph-building path used by stochastic `get_actions` has the squash
correction subtracted from the raw mixture log-density — is false at the
concrete distribution output `wDist0`: `build` stores
`_log_pis = log_p_t = [0]`, while the corrected value is
`[-log(1 + EPS)] ≠ [0]`. -/
theorem C3_counterexample :
    (build true wDist0).log_pis ≠
      (wDist0.log_p_t).zipWith (· - ·) (squash_correction wDist0.x_t) := by
  have h0 : (wDist0.log_p_t).zipWith (· - ·) (squash_correction wDist0.x_t) =
      [0 - Real.log (1 + EPS)] := by
    show List.zipWith (· - ·) [(0 : ℝ)] (squash_correction [[(0 : ℝ)]]) = _
    rw [squash_correction_at_zero]
    rfl
  rw [h0]
  show ¬([(0 : ℝ)] = [0 - Real.log (1 + EPS)])
  intro h
  have h1 : (0 : ℝ) = 0 - Real.log (1 + EPS) := List.head_eq_of_cons_eq h
  have h2 : 0 < Real.log (1 + EPS) := log_one_add_EPS_pos
  linarith

/-- C3 amended: with `squash=True`, `actions_for` subtracts the squash
correction from the raw mixture log-density, but the graph-building path
used by stochastic `get_actions` stores the raw mixture log-density with
nothing subtracted. -/
theorem C3_squash_log_pis :
    ∀ dist : GMMDistOut,
      (actions_for true true dist).2 =
        some ((dist.log_p_t).zipWith (· - ·)
          (squash_correction dist.x_t)) ∧
      (build true dist).log_pis = dist.log_p_t :=
  fun _ => ⟨rfl, rfl⟩

/-- C4: for every evaluated distribution output, with `squash=True` the
returned action (both in `actions_for` and in the `build` tensors) is the
elementwise `tanh` of the raw action and every entry lies in `(-1, 1)`;
with `squash=False` it equals the raw action exactly. -/
theorem C4_squash_action_range :
    ∀ (dist : GMMDistOut) (wlp : Bool),
      (actions_for true wlp dist).1 = dist.x_t.map (List.map Real.tanh) ∧
      (∀ row ∈ (actions_for true wlp dist).1, ∀ a ∈ row,
        -1 < a ∧ a < 1) ∧
      (actions_for false wlp dist).1 = dist.x_t ∧
      (build true dist).actions = dist.x_t.map (List.map Real.tanh) ∧
      (∀ row ∈ (build true dist).actions, ∀ a ∈ row, -1 < a ∧ a < 1) ∧
      (build false dist).actions = dist.x_t := by
  intro dist wlp
  have h1 : (actions_for true wlp dist).1 =
      dist.x_t.map (List.map Real.tanh) := by
    rw [actions_for_fst]
    rfl
  refine ⟨h1, ?_, by rw [actions_for_fst]; rfl, rfl, ?_, rfl⟩
  · rw [h1]
    exact mem_tanh_map_bounds dist.x_t
  · exact mem_tanh_map_bounds dist.x_t

/-- C4 witness: at the concrete distribution output `wDist0` (raw action
`0`), the squashed action entry `tanh 0` produced by `actions_for` lies in
`(-1, 1)`. -/
theorem C4_squash_action_range_witness :
    -1 < Real.tanh 0 ∧ Real.tanh 0 < 1 := by
  have hmem : [Real.tanh 0] ∈ (actions_for true false wDist0).1 := by
    show [Real.tanh 0] ∈ [[Real.tanh 0]]
    exact List.mem_singleton.mpr rfl
  exact (C4_squash_action_range wDist0 false).2.1 [Real.tanh 0] hmem
    (Real.tanh 0) (List.mem_singleton.mpr rfl)

/-- C5: in deterministic mode, `get_actions` raises when no value function
was supplied, and raises when `with_log_pis=True` — the latter regardless
of whether a value function is present (with no value function the
`AttributeError` fires first; with one, the assertion fires). -/
theorem C5_deterministic_mode_errors :
    ∀ (cfg : GMMPolicyCfg) (mode : GMMPolicyMode) (dist : GMMDistOut)
      (obs : List (List ℝ)) (wlp wra : Bool),
      mode.is_deterministic = true →
      (cfg.qf = none ∨ wlp = true) →
      ∃ e : GMMError,
        get_actions cfg mode dist obs wlp wra = Except.error e := by
  intro cfg mode dist obs wlp wra hdet hor
  cases hq : cfg.qf with
  | none =>
    exact ⟨GMMError.attributeError, by
      unfold get_actions
      rw [hdet, hq]
      rfl⟩
  | some f =>
    rcases hor with hqf | hwlp
    · rw [hq] at hqf
      exact absurd hqf (by simp)
    · exact ⟨GMMError.assertionError, by
        unfold get_actions
        rw [hdet, hq, hwlp]
        rfl⟩

/-- C5 witness: a deterministic-mode policy with no value function fails
when `get_actions` is invoked, at concrete inputs. -/
theorem C5_deterministic_mode_errors_witness :
    wModeDet.is_deterministic = true ∧
    (wCfgNoQF.qf = none ∨ false = true) ∧
    ∃ e : GMMError,
      get_actions wCfgNoQF wModeDet wDist0 [[0]] false false =
        Except.error e :=
  ⟨rfl, Or.inl rfl,
    C5_deterministic_mode_errors wCfgNoQF wModeDet wDist0 [[0]] false false
      rfl (Or.inl rfl)⟩

/-- C7: in deterministic mode the result of `get_actions` depends on the
distribution output only through the first batch row of the mixture means:
two distribution outputs whose `mus_t` tensors agree on the first row give
identical results, whatever the rows beyond the first are. -/
theorem C7_deterministic_first_row_only :
    ∀ (cfg : GMMPolicyCfg) (mode : GMMPolicyMode) (dist dist' : GMMDistOut)
      (obs : List (List ℝ)) (wlp wra : Bool),
      mode.is_deterministic = true →
      dist.mus_t.head? = dist'.mus_t.head? →
      get_actions cfg mode dist obs wlp wra =
        get_actions cfg mode dist' obs wlp wra := by
  intro cfg mode dist dist' obs wlp wra hdet hhead
  unfold get_actions
  rw [hdet, hhead]
  rfl

/-- C7 witness: two concrete two-row batches agreeing only in the first row
(`wDistA` and `wDistB`) give identical deterministic results. -/
theorem C7_deterministic_first_row_only_witness :
    wModeDetFixed.is_deterministic = true ∧
    wDistA.mus_t.head? = wDistB.mus_t.head? ∧
    get_actions wCfg wModeDetFixed wDistA [[0], [1]] false false =
      get_actions wCfg wModeDetFixed wDistB [[0], [1]] false false :=
  ⟨rfl, rfl,
    C7_deterministic_first_row_only wCfg wModeDetFixed wDistA wDistB
      [[0], [1]] false false rfl rfl⟩

/-- Reduction of the deterministic branch of `get_actions` to its indexing
tail, under the hypotheses that make it reach that tail. -/
theorem get_actions_det_eq (cfg : GMMPolicyCfg) (f : QF)
    (mode : GMMPolicyMode) (dist : GMMDistOut) (obs : List (List ℝ))
    (wra : Bool) (mus : List (List ℝ))
    (hdet : mode.is_deterministic = true) (hqf : cfg.qf = some f)
    (hmus : dist.mus_t.head? = some mus) :
    get_actions cfg mode dist obs false wra =
      det_index_actions wra
        (if cfg.squash then mus.map (List.map Real.tanh) else mus) mus
        (det_h mode (f obs
          (if cfg.squash then mus.map (List.map Real.tanh) else mus))) := by
  unfold get_actions
  rw [hdet, hqf, hmus]
  rfl

/-- The indexing tail succeeds exactly with the rows found at index `h`. -/
theorem det_index_actions_ok (wra : Bool) (squashed_mus mus : List (List ℝ))
    (h : ℕ) (arow rrow : List ℝ) (ha : squashed_mus[h]? = some arow)
    (hr : mus[h]? = some rrow) :
    det_index_actions wra squashed_mus mus h =
      Except.ok
        { actions := [arow]
          log_pis := none
          raw_actions := if wra then some [rrow] else none } := by
  unfold det_index_actions
  rw [ha, hr]

/-- Inversion: a successful result of the indexing tail comes from rows
found at index `h`, carries no log-probability, and returns the raw row
exactly when requested. -/
theorem det_index_actions_ok_inv (wra : Bool)
    (squashed_mus mus : List (List ℝ)) (h : ℕ) (r : ActionResult)
    (hok : det_index_actions wra squashed_mus mus h = Except.ok r) :
    ∃ arow rrow, squashed_mus[h]? = some arow ∧ mus[h]? = some rrow ∧
      r = { actions := [arow]
            log_pis := none
            raw_actions := if wra then some [rrow] else none } := by
  unfold det_index_actions at hok
  cases ha : squashed_mus[h]? with
  | none =>
    rw [ha] at hok
    cases hr : mus[h]? <;> rw [hr] at hok <;> simp at hok
  | some arow =>
    cases hr : mus[h]? with
    | none =>
      rw [ha, hr] at hok
      simp at hok
    | some rrow =>
      rw [ha, hr] at hok
      simp only [Except.ok.injEq] at hok
      exact ⟨arow, rrow, rfl, rfl, hok.symm⟩

/-- Indexing the optionally squashed mean matrix commutes with squashing the
indexed row. -/
theorem squashed_getElem (squash : Bool) (mus : List (List ℝ)) (h0 : ℕ)
    (row : List ℝ) (hrow : mus[h0]? = some row) :
    (if squash then mus.map (List.map Real.tanh) else mus)[h0]? =
      some (if squash then row.map Real.tanh else row) := by
  cases squash with
  | false => simpa using hrow
  | true => simp [List.getElem?_map, hrow]

/-- C8: in deterministic mode with a value function present, the returned
action is the optionally squashed mean of the pinned component when a
component index is fixed, and of the component whose candidate action
maximizes the value-function score otherwise; the raw action, when
requested, is the unsquashed mean of the same component. -/
theorem C8_deterministic_selection :
    ∀ (cfg : GMMPolicyCfg) (f : QF) (mode : GMMPolicyMode)
      (dist : GMMDistOut) (obs : List (List ℝ)) (wra : Bool)
      (mus : List (List ℝ)),
      mode.is_deterministic = true →
      cfg.qf = some f →
      dist.mus_t.head? = some mus →
      ((∀ (h0 : ℕ) (row : List ℝ), mode.fixed_h = some h0 →
          mus[h0]? = some row →
          get_actions cfg mode dist obs false wra =
            Except.ok
              { actions := [if cfg.squash then row.map Real.tanh else row]
                log_pis := none
                raw_actions := if wra then some [row] else none }) ∧
       (∀ row : List ℝ, mode.fixed_h = none →
          mus[npArgmax (f obs (if cfg.squash then
              mus.map (List.map Real.tanh) else mus))]? = some row →
          get_actions cfg mode dist obs false wra =
            Except.ok
              { actions := [if cfg.squash then row.map Real.tanh else row]
                log_pis := none
                raw_actions := if wra then some [row] else none })) := by
  intro cfg f mode dist obs wra mus hdet hqf hmus
  constructor
  · intro h0 row hfix hrow
    rw [get_actions_det_eq cfg f mode dist obs wra mus hdet hqf hmus]
    have hdh : det_h mode (f obs (if cfg.squash then
        mus.map (List.map Real.tanh) else mus)) = h0 := by
      unfold det_h
      rw [hfix]
    rw [hdh]
    exact det_index_actions_ok wra _ mus h0 _ row
      (squashed_getElem cfg.squash mus h0 row hrow) hrow
  · intro row hfix hrow
    rw [get_actions_det_eq cfg f mode dist obs wra mus hdet hqf hmus]
    have hdh : det_h mode (f obs (if cfg.squash then
        mus.map (List.map Real.tanh) else mus)) =
        npArgmax (f obs (if cfg.squash then
          mus.map (List.map Real.tanh) else mus)) := by
      unfold det_h
      rw [hfix]
    rw [hdh]
    exact det_index_actions_ok wra _ mus _ _ row
      (squashed_getElem cfg.squash mus _ row hrow) hrow

/-- C8 witness: with the component pinned to `0` and squashing enabled the
returned action is `tanh` of that component mean; with nothing pinned and
squashing disabled the returned action is the mean of the argmax component
of the value-function scores. -/
theorem C8_deterministic_selection_witness :
    wModeDetFixed.is_deterministic = true ∧
    wCfgSquash.qf = some wQF0 ∧
    wDist0.mus_t.head? = some [[1]] ∧
    wModeDetFixed.fixed_h = some 0 ∧
    ([[(1 : ℝ)]] : List (List ℝ))[0]? = some [1] ∧
    get_actions wCfgSquash wModeDetFixed wDist0 [[0]] false false =
      Except.ok
        { actions := [[Real.tanh 1]], log_pis := none,
          raw_actions := none } ∧
    wModeDet.fixed_h = none ∧
    get_actions wCfg wModeDet wDist0 [[0]] false false =
      Except.ok
        { actions := [[(1 : ℝ)]], log_pis := none, raw_actions := none } :=
  ⟨rfl, rfl, rfl, rfl, rfl,
    (C8_deterministic_selection wCfgSquash wQF0 wModeDetFixed wDist0 [[0]]
        false [[1]] rfl rfl rfl).1 0 [1] rfl rfl,
    rfl,
    (C8_deterministic_selection wCfg wQF0 wModeDet wDist0 [[0]]
        false [[1]] rfl rfl rfl).2 [1] rfl rfl⟩

/-- C10: in deterministic mode, a successful `get_actions` result is a
single action row of dimension `Da` whatever the batch size, carries no
log-probability, and, when raw actions were requested, additionally holds
the single pre-squash mean of the selected component — the action being
that same mean, optionally squashed. -/
theorem C10_deterministic_result_shape :
    ∀ (cfg : GMMPolicyCfg) (mode : GMMPolicyMode) (dist : GMMDistOut)
      (obs : List (List ℝ)) (wlp wra : Bool) (r : ActionResult)
      (mus : List (List ℝ)),
      mode.is_deterministic = true →
      dist.mus_t.head? = some mus →
      (∀ krow ∈ mus, krow.length = cfg.Da) →
      get_actions cfg mode dist obs wlp wra = Except.ok r →
      r.log_pis = none ∧
      (∃ a, r.actions = [a] ∧ a.length = cfg.Da) ∧
      (wra = true →
        ∃ (h0 : ℕ) (rrow : List ℝ), mus[h0]? = some rrow ∧
          r.raw_actions = some [rrow] ∧
          r.actions =
            [if cfg.squash then rrow.map Real.tanh else rrow]) := by
  intro cfg mode dist obs wlp wra r mus hdet hmus hwf hok
  cases hq : cfg.qf with
  | none =>
    unfold get_actions at hok
    rw [hdet, hq] at hok
    simp at hok
  | some f =>
    cases wlp with
    | true =>
      unfold get_actions at hok
      rw [hdet, hq] at hok
      simp at hok
    | false =>
      rw [get_actions_det_eq cfg f mode dist obs wra mus hdet hq hmus]
        at hok
      rcases det_index_actions_ok_inv _ _ _ _ _ hok with
        ⟨arow, rrow, ha, hr, hreq⟩
      subst hreq
      have harow : arow = if cfg.squash then rrow.map Real.tanh else rrow :=
        Option.some.inj ((squashed_getElem cfg.squash mus _ rrow hr).symm.trans ha).symm
      have hlen : rrow.length = cfg.Da := hwf rrow (List.getElem?_mem hr)
      refine ⟨rfl, ⟨arow, rfl, ?_⟩, ?_⟩
      · rw [harow]
        cases cfg.squash with
        | false => simpa using hlen
        | true => simpa using hlen
      · intro hwra
        refine ⟨_, rrow, hr, ?_, by rw [harow]⟩
        rw [hwra]
        rfl

/-- C10 witness: at concrete inputs with a batch of one observation, the
deterministic result is one action row of dimension `Da = 1`, with no
log-probability and with the single pre-squash component mean returned as
raw action. -/
theorem C10_deterministic_result_shape_witness :
    wModeDetFixed.is_deterministic = true ∧
    wDist0.mus_t.head? = some [[1]] ∧
    (∀ krow ∈ ([[(1 : ℝ)]] : List (List ℝ)), krow.length = wCfg.Da) ∧
    get_actions wCfg wModeDetFixed wDist0 [[0]] false true =
      Except.ok wRes ∧
    (wRes.log_pis = none ∧
      (∃ a, wRes.actions = [a] ∧ a.length = wCfg.Da) ∧
      (true = true →
        ∃ (h0 : ℕ) (rrow : List ℝ),
          ([[(1 : ℝ)]] : List (List ℝ))[h0]? = some rrow ∧
          wRes.raw_actions = some [rrow] ∧
          wRes.actions =
            [if wCfg.squash then rrow.map Real.tanh else rrow])) := by
  have hwf : ∀ krow ∈ ([[(1 : ℝ)]] : List (List ℝ)),
      krow.length = wCfg.Da := by
    intro krow hk
    rw [List.mem_singleton] at hk
    subst hk
    rfl
  exact ⟨rfl, rfl, hwf, rfl,
    C10_deterministic_result_shape wCfg wModeDetFixed wDist0 [[0]] false
      true wRes [[1]] rfl rfl hwf rfl⟩
